import Mathlib

/-!
Verification of the hoodik client cryptography core.

The development shallowly embeds two source files:
- the RSA key-pair manager (inputToKeyPair, publicToKeyPair, getFingerprint,
  getFingerprintFromRaw, generateKeyPair, keypairFromRaw, sign, verify,
  encryptMessage, decryptMessage, protectPrivateKey, decryptPrivateKey);
- the transfer worker (onmessage dispatch, the cancellation registry
  self.canceled, and handleError).

Byte sequences are lists of Nat below 256.  The SHA-256 hash used by the
fingerprint (the node-forge sha256 collaborator) is implemented in full so
fingerprint values are concretely computable.  The RSA bignum arithmetic of
the node-rsa library is an external collaborator and is modelled
symbolically: a PEM blob is an inductive value recording exactly the data
the encoding carries, and signatures and ciphertexts are symbolic values
binding the modulus and the message, which is the standard symbolic model
of an asymmetric primitive.
-/

namespace Hoodik

/-! ## 32-bit helpers and SHA-256 (the node-forge sha256 collaborator) -/

/-- Truncate to a 32-bit word. -/
def w32 (x : Nat) : Nat := x % 4294967296

/-- Right rotation of a 32-bit word. -/
def rotr32 (n x : Nat) : Nat := w32 ((x >>> n) ||| (x <<< (32 - n)))

def bsig0 (x : Nat) : Nat := (rotr32 2 x) ^^^ (rotr32 13 x) ^^^ (rotr32 22 x)

def bsig1 (x : Nat) : Nat := (rotr32 6 x) ^^^ (rotr32 11 x) ^^^ (rotr32 25 x)

def ssig0 (x : Nat) : Nat := (rotr32 7 x) ^^^ (rotr32 18 x) ^^^ (x >>> 3)

def ssig1 (x : Nat) : Nat := (rotr32 17 x) ^^^ (rotr32 19 x) ^^^ (x >>> 10)

def ch (x y z : Nat) : Nat := (x &&& y) ^^^ ((x ^^^ 4294967295) &&& z)

def maj (x y z : Nat) : Nat := (x &&& y) ^^^ (x &&& z) ^^^ (y &&& z)

/-- Primality by trial division, used to build the SHA-256 constants. -/
def isSmallPrime (n : Nat) : Bool :=
  2 ≤ n && (((List.range n).drop 2).all (fun d => n % d ≠ 0))

/-- Bisection step of the integer cube root: lo cubed stays at most x,
hi cubed stays above x. -/
def icbrtGo (x : Nat) : Nat → Nat → Nat → Nat
  | 0, lo, _ => lo
  | fuel + 1, lo, hi =>
      let mid := (lo + hi) / 2
      if mid = lo then lo
      else if mid * (mid * mid) ≤ x then icbrtGo x fuel mid hi
      else icbrtGo x fuel lo mid

/-- Integer cube root. -/
def icbrt (x : Nat) : Nat := icbrtGo x 128 0 (x + 1)

/-- The 64 SHA-256 round constants: the first 32 fractional bits of the
cube roots of the first 64 primes (FIPS 180-4). -/
def sha256K : List Nat :=
  ((List.range 312).filter isSmallPrime).map
    (fun p => icbrt (p <<< 96) % 4294967296)

/-- The SHA-256 initial hash value: the first 32 fractional bits of the
square roots of the first 8 primes (FIPS 180-4). -/
def sha256Init : List Nat :=
  ((List.range 20).filter isSmallPrime).map
    (fun p => Nat.sqrt (p <<< 64) % 4294967296)

/-- Big-endian byte encoding of a number over a fixed width. -/
def beBytes : Nat → Nat → List Nat
  | 0, _ => []
  | k + 1, x => beBytes k (x / 256) ++ [x % 256]

/-- SHA-256 message padding: a 0x80 byte, zeros to 56 mod 64, then the
bit length over 8 big-endian bytes. -/
def sha256Pad (msg : List Nat) : List Nat :=
  msg ++ [0x80] ++ List.replicate ((119 - msg.length % 64) % 64) 0
      ++ beBytes 8 (msg.length * 8)

/-- Group bytes into big-endian 32-bit words. -/
def toWords : List Nat → List Nat
  | b0 :: b1 :: b2 :: b3 :: rest =>
      (((b0 * 256 + b1) * 256 + b2) * 256 + b3) :: toWords rest
  | _ => []

/-- Extend the 16 block words to the 64-entry message schedule. -/
def schedule (block : List Nat) : Array Nat :=
  (List.range 48).foldl
    (fun ws _ =>
      let t := ws.size
      ws.push (w32 (ssig1 (ws.getD (t - 2) 0) + ws.getD (t - 7) 0 +
                    ssig0 (ws.getD (t - 15) 0) + ws.getD (t - 16) 0)))
    block.toArray

/-- One SHA-256 round on the eight-word working state. -/
def compressStep (k w : Nat) (st : List Nat) : List Nat :=
  match st with
  | [a, b, c, d, e, f, g, h] =>
      let t1 := w32 (h + bsig1 e + ch e f g + k + w)
      let t2 := w32 (bsig0 a + maj a b c)
      [w32 (t1 + t2), a, b, c, w32 (d + t1), e, f, g]
  | other => other

/-- Compress one 64-byte block into the running hash value. -/
def compressBlock (st : List Nat) (block : List Nat) : List Nat :=
  let ws := schedule (toWords block)
  let final := (List.range 64).foldl
    (fun s t => compressStep (sha256K.getD t 0) (ws.getD t 0) s) st
  List.zipWith (fun x y => w32 (x + y)) st final

/-- SHA-256 of a byte sequence, as 32 bytes. -/
def sha256 (msg : List Nat) : List Nat :=
  let padded := sha256Pad msg
  let blocks := (List.range (padded.length / 64)).map
    (fun i => (padded.drop (64 * i)).take 64)
  (blocks.foldl compressBlock sha256Init).foldr
    (fun w acc => beBytes 4 w ++ acc) []

/-! ## Hex encoding (Buffer.toString hex / forge digest toHex) -/

/-- Lowercase hex digit for a value below 16. -/
def hexDigit (n : Nat) : Char :=
  if n < 10 then Char.ofNat (48 + n) else Char.ofNat (87 + n)

/-- Two lowercase hex digits of one byte. -/
def byteToHex (b : Nat) : List Char := [hexDigit (b / 16 % 16), hexDigit (b % 16)]

/-- Lowercase hex string of a byte sequence, as Buffer.toString with the
hex encoding produces it. -/
def bytesToHex (bs : List Nat) : String :=
  String.mk (bs.foldr (fun b acc => byteToHex b ++ acc) [])

/-- The byte sequence the forge raw encoding reads off a string: the low
eight bits of each character code. -/
def strToRawBytes (s : String) : List Nat :=
  s.data.map (fun c => c.toNat % 256)

/-! ## Symbolic model of the node-rsa library

A PEM blob is modelled by what the encoding carries: a pkcs1 private PEM
carries the modulus together with the private exponent, a pkcs1 public PEM
carries only the modulus, and anything else fails both import formats.  The
modulus is the byte sequence the components-public export returns, which
starts with the 0x00 sign byte the encoding adds.  An RSA object (the Raw
interface of the source) holds the modulus, the optional private exponent,
and the optional input field the source attaches. -/

/-- A PEM key blob, by the data the pkcs1 encodings carry. -/
inductive Pem
  | privatePkcs1 (n : List Nat) (d : Nat)
  | publicPkcs1 (n : List Nat)
  | malformed (s : String)
deriving DecidableEq, Repr

/-- The imported RSA key object (interface Raw of the source): modulus
bytes, optional private exponent, and the input field the source sets. -/
structure Raw where
  n : List Nat
  d : Option Nat
  input : Option Pem
deriving DecidableEq, Repr

/-- The RSA key has a private part (node-rsa isPrivate). -/
def Raw.isPrivate (k : Raw) : Bool := k.d.isSome

/-- The RSA key has a public part (node-rsa isPublic); every imported key
carries its modulus, so this is always true. -/
def Raw.isPublic (_ : Raw) : Bool := true

/-- Import a blob as a pkcs1 private key (importKey with the private
format); only a private PEM parses. -/
def importPrivatePem : Pem → Except String Raw
  | .privatePkcs1 n d => .ok ⟨n, some d, none⟩
  | _ => .error "KeyFormatError: importKey expected pkcs1 private pem"

/-- Import a blob as a pkcs1 public key (the pkcs1-public-pem format);
only a public PEM parses. -/
def importPublicPem : Pem → Except String Raw
  | .publicPkcs1 n => .ok ⟨n, none, none⟩
  | _ => .error "KeyFormatError: expected pkcs1 public pem"

/-- Export the public half of a key as a public PEM (exportKey with the
pkcs1-public-pem format). -/
def exportPublicPem (k : Raw) : Pem := .publicPkcs1 k.n

/-- Export a private key as a private PEM (exportKey with the pkcs1
format); the private exponent defaults are irrelevant for public keys,
which the source never exports this way. -/
def exportPrivatePem (k : Raw) : Pem := .privatePkcs1 k.n (k.d.getD 0)

/-! ## The KeyPair manager (source file of inputToKeyPair and friends) -/

/-- The KeyPair record of the source. -/
structure KeyPair where
  input : Option Pem
  key : Option Raw
  publicKey : Option Pem
  fingerprint : Option String
deriving DecidableEq, Repr

/-- getFingerprintFromRaw: export the public components, map the modulus
bytes through the identity, shift off the first byte, hex-encode the rest
into a string, hash that string with forge sha256 under the raw encoding,
and return the hex digest. -/
def getFingerprintFromRaw (key : Raw) : String :=
  let n := key.n
  let newN := n.map (fun byte => byte)
  let shifted := newN.tail
  bytesToHex (sha256 (strToRawBytes (bytesToHex shifted)))

/-- inputToKeyPair: import the blob as a private key, attach the input,
derive the public key and the fingerprint. -/
def inputToKeyPair (input : Pem) : Except String KeyPair := do
  let key0 ← importPrivatePem input
  let key : Raw := { key0 with input := some input }
  let publicKey := exportPublicPem key
  let fingerprint := getFingerprintFromRaw key
  return { input := some input, key := some key,
           publicKey := some publicKey, fingerprint := some fingerprint }

/-- publicToKeyPair: import the blob as a public key; the resulting pair
has no private input. -/
def publicToKeyPair (publicKey : Pem) : Except String KeyPair := do
  let key ← importPublicPem publicKey
  return { input := none, key := some key, publicKey := some publicKey,
           fingerprint := some (getFingerprintFromRaw key) }

/-- getFingerprint, the try block: parse as a public key and fingerprint
it; a null key raises inside the block. -/
def getFingerprintTry (input : Pem) : Except String String := do
  let kp ← publicToKeyPair input
  match kp.key with
  | none => .error "Not public key, or not a public key"
  | some key => return getFingerprintFromRaw key

/-- getFingerprint, the catch block: parse as a private key (an import
error propagates), re-import the exported public key, fingerprint it. -/
def getFingerprintCatch (input : Pem) (e : String) : Except String String := do
  let kp ← inputToKeyPair input
  match kp.publicKey with
  | none => .error ("Not a public key or a private key, upstream error: " ++ e)
  | some publicKey =>
    let kp2 ← publicToKeyPair publicKey
    match kp2.key with
    | none => .error ("Not a public key or a private key, upstream error: " ++ e)
    | some key => return getFingerprintFromRaw key

/-- getFingerprint: the try block, falling to the catch block on error. -/
def getFingerprint (input : Pem) : Except String String :=
  match getFingerprintTry input with
  | .ok r => .ok r
  | .error e => getFingerprintCatch input e

/-- generateKeyPair: generate a fresh pair, export it as a private PEM and
run inputToKeyPair on it.  The freshly generated pair is an argument, since
randomness is an external capability. -/
def generateKeyPair (fresh : Raw) : Except String KeyPair :=
  inputToKeyPair (exportPrivatePem fresh)

/-- keypairFromRaw: rebuild a KeyPair from its parts, recomputing the
fingerprint from the public key when one is present; the input is taken
off the raw key. -/
def keypairFromRaw (internal : KeyPair) : Except String KeyPair := do
  let key := internal.key
  let publicKey := internal.publicKey
  let fingerprint ← match publicKey with
    | some pk => do
        let f ← getFingerprint pk
        pure (some f)
    | none => pure (none : Option String)
  return { input := (key.bind Raw.input), key := key,
           publicKey := publicKey, fingerprint := fingerprint }

/-! ## Signing and verification

A PSS signature produced by the external RSA primitive is modelled
symbolically as a value binding the modulus of the signing key and the
signed message; verification with a public key succeeds exactly when the
signature was produced by the matching private key on the same message. -/

/-- A signature value: either one produced by the RSA primitive, binding
modulus and message, or arbitrary junk bytes. -/
inductive SigVal
  | signed (n : List Nat) (message : String)
  | junk (s : String)
deriving DecidableEq, Repr

/-- The RSA primitive check behind node-rsa verify. -/
def rawVerify (key : Raw) (message : String) (signature : SigVal) : Bool :=
  signature = SigVal.signed key.n message

/-- sign: requires a private-capable key, then signs with it. -/
def sign (kp : KeyPair) (message : String) : Except String SigVal :=
  match kp.key with
  | none => .error "No privateKey, cannot sign message"
  | some key =>
    if key.isPrivate then .ok (SigVal.signed key.n message)
    else .error "No privateKey, cannot sign message"

/-- verify: import the public key, then run the primitive check; the only
error path is the public-key import. -/
def verify (signature : SigVal) (message : String) (publicKey : Pem) :
    Except String Bool := do
  let kp ← publicToKeyPair publicKey
  match kp.key with
  | none => .error "No publicKey, cannot verify message"
  | some key => return rawVerify key message signature

/-! ## Short-message encryption (pkcs1 v1.5)

The ciphertext is modelled symbolically, binding the modulus of the
encrypting public key and the message; decryption with the matching
private key recovers the message, anything else fails.  The pkcs1 v1.5
payload limit is the modulus byte length minus 11; the exported modulus
carries one extra sign byte in front. -/

/-- A ciphertext of the short-message RSA encryption. -/
inductive CipherVal
  | enc (n : List Nat) (message : String)
  | junk (s : String)
deriving DecidableEq, Repr

/-- The pkcs1 v1.5 payload limit of a key, in bytes: modulus length minus
the 11 padding bytes; the exported modulus includes a leading sign byte. -/
def maxMessageSize (key : Raw) : Nat := key.n.length - 1 - 11

/-- encryptMessage: import the public key, require a public part, and
encrypt under pkcs1 v1.5; an oversized message makes the primitive
throw. -/
def encryptMessage (message : String) (publicKey : Pem) :
    Except String CipherVal := do
  let kp ← publicToKeyPair publicKey
  match kp.key with
  | none => .error "No publicKey, cannot encrypt message"
  | some key =>
    if !key.isPublic then .error "Key is not public, cannot encrypt message"
    else if message.utf8ByteSize > maxMessageSize key then
      .error "Message too long for RSA"
    else return CipherVal.enc key.n message

/-- decryptMessage: requires a private-capable key; the primitive recovers
the message exactly when the ciphertext was made for this modulus. -/
def decryptMessage (kp : KeyPair) (message : CipherVal) : Except String String :=
  match kp.key with
  | none => .error "No privateKey, cannot decrypt message"
  | some key =>
    if !key.isPrivate then .error "No privateKey, cannot decrypt message"
    else
      match message with
      | .enc n m => if n = key.n then .ok m else .error "Error during decryption"
      | .junk _ => .error "Error during decryption"

/-! ## Passphrase wrapping of the private key -/

/-- Modelled from the spec: the aes module imported by the key-pair source
is repository code outside src.  The spec describes it as a symmetric,
passphrase-derived cipher that recovers the plaintext under the right
passphrase and fails with a decryption error on a wrong passphrase or
corrupted input; the ciphertext is modelled symbolically as the passphrase
and plaintext it binds. -/
inductive AesCipher
  | wrapped (passphrase : String) (plaintext : String)
  | corrupted (s : String)
deriving DecidableEq, Repr

/-- Modelled from the spec: aes.encrypt of the missing aes module, the
symmetric passphrase-derived encryption. -/
def aesEncrypt (plaintext passphrase : String) : AesCipher :=
  AesCipher.wrapped passphrase plaintext

/-- Modelled from the spec: aes.decrypt of the missing aes module; it
fails with a decryption error on a wrong passphrase or corrupted input. -/
def aesDecrypt (ciphertext : AesCipher) (passphrase : String) :
    Except String String :=
  match ciphertext with
  | .wrapped p t => if p = passphrase then .ok t else .error "DecryptionError"
  | .corrupted _ => .error "DecryptionError"

/-- protectPrivateKey: wrap the unencrypted blob under the passphrase with
the aes collaborator. -/
def protectPrivateKey (unencrypted : String) (passphrase : String) : AesCipher :=
  aesEncrypt unencrypted passphrase

/-- decryptPrivateKey: unwrap the encrypted blob with the aes
collaborator. -/
def decryptPrivateKey (encrypted : AesCipher) (passphrase : String) :
    Except String String :=
  aesDecrypt encrypted passphrase

/-! ## The transfer worker (sw.ts)

The worker is a single event-driven context.  Its mutable state is the
optional SWApi credentials object and the two cancellation lists of
self.canceled.  A dispatch handler that finds no SWApi suspends in a sleep
loop and resumes once the auth handler has installed the credentials; the
model records such suspended dispatches in pending lists, emptied with a
dispatch output the moment auth is processed.  Dispatch outputs carry the
credentials in force when the pipeline call is made. -/

/-- The credentials payload of an auth message (the data the Api maker is
built from). -/
abbrev Credentials := Nat

/-- The payload of a transfer message: the transferable file and the
metadata JSON string. -/
structure FileMsg where
  transferableFile : Nat
  metadataJson : String
deriving DecidableEq, Repr

/-- The transfer direction of a cancel message. -/
inductive Kind
  | upload
  | download
deriving DecidableEq, Repr

/-- The four message kinds the worker receives. -/
inductive Msg
  | auth (credentials : Credentials)
  | cancel (kind : Kind) (id : Nat)
  | uploadFile (f : FileMsg)
  | downloadFile (f : FileMsg)
deriving DecidableEq, Repr

/-- The worker state: the installed SWApi, the two cancellation lists of
self.canceled, and the dispatches suspended in the SWApi wait loop. -/
structure WorkerState where
  swApi : Option Credentials
  canceledUpload : List Nat
  canceledDownload : List Nat
  pendingUpload : List FileMsg
  pendingDownload : List FileMsg
deriving DecidableEq, Repr

/-- The initial worker state: no SWApi, empty cancellation lists. -/
def initialWorkerState : WorkerState :=
  { swApi := none, canceledUpload := [], canceledDownload := [],
    pendingUpload := [], pendingDownload := [] }

/-- A pipeline invocation the worker makes: the handler called with the
credentials in force and the message payload. -/
inductive Dispatch
  | dispatchUpload (api : Credentials) (f : FileMsg)
  | dispatchDownload (api : Credentials) (f : FileMsg)
deriving DecidableEq, Repr

/-- onmessage: process one message against the worker state, returning the
new state and the pipeline dispatches made.  auth installs the credentials
and wakes every suspended dispatch; cancel pushes the id onto the list of
its direction; a transfer message dispatches at once when SWApi is
installed and suspends otherwise. -/
def onmessage (s : WorkerState) (m : Msg) : WorkerState × List Dispatch :=
  match m with
  | .auth c =>
      ({ s with swApi := some c, pendingUpload := [], pendingDownload := [] },
       s.pendingUpload.map (Dispatch.dispatchUpload c) ++
       s.pendingDownload.map (Dispatch.dispatchDownload c))
  | .cancel .upload id =>
      ({ s with canceledUpload := s.canceledUpload ++ [id] }, [])
  | .cancel .download id =>
      ({ s with canceledDownload := s.canceledDownload ++ [id] }, [])
  | .uploadFile f =>
      match s.swApi with
      | some c => (s, [Dispatch.dispatchUpload c f])
      | none => ({ s with pendingUpload := s.pendingUpload ++ [f] }, [])
  | .downloadFile f =>
      match s.swApi with
      | some c => (s, [Dispatch.dispatchDownload c f])
      | none => ({ s with pendingDownload := s.pendingDownload ++ [f] }, [])

/-! ## Worker error flattening (handleError) -/

/-- A value caught at the worker boundary: absent or falsy, a string, a
native Error instance (with message, optional stack, and the optional
validation and description fields of an ErrorResponse), or some other
thrown object that is neither a string nor an Error instance. -/
inductive ErrVal
  | noErr
  | str (s : String)
  | errObj (message : String) (stack : Option String)
      (validation : Option String) (description : Option String)
  | otherObj (tag : String)
deriving DecidableEq, Repr

/-- The structured error record sent across the worker boundary. -/
structure WorkerError where
  context : String
  stack : Option String
deriving DecidableEq, Repr

/-- JavaScript truthiness of the caught value: empty strings and the
absent value are falsy, objects are truthy. -/
def ErrVal.truthy : ErrVal → Bool
  | .noErr => false
  | .str s => s ≠ ""
  | .errObj _ _ _ _ => true
  | .otherObj _ => true

/-- The JavaScript or-chain over possibly absent string fields: the first
truthy operand wins, otherwise the last operand. -/
def jsOr (x : Option String) (y : String) : String :=
  match x with
  | some s => if s = "" then y else s
  | none => y

/-- handleError: return nothing for a falsy value, wrap a string as a
context, flatten an Error instance to its validation, description or
message plus stack, and fall through (returning nothing) for any other
object. -/
def handleError : ErrVal → Option WorkerError
  | .noErr => none
  | .str s => if s = "" then none else some { context := s, stack := none }
  | .errObj message stack validation description =>
      some { context := jsOr validation (jsOr description message), stack := stack }
  | .otherObj _ => none

/-- The upload-progress response message the worker posts. -/
structure UploadChunkResponseMessage where
  transferableFile : Nat
  metadataJson : String
  attempt : Nat
  isDone : Bool
  error : Option WorkerError
deriving DecidableEq, Repr

/-- The download-progress response message the worker posts. -/
structure DownloadProgressResponseMessage where
  transferableFile : Nat
  chunkBytes : Nat
  error : Option WorkerError
deriving DecidableEq, Repr

/-- The progress closure of handleUploadFile: the posted upload-progress
event for a given attempt, done flag and error value. -/
def uploadProgressEvent (f : FileMsg) (attempt : Nat) (isDone : Bool)
    (error : ErrVal) : UploadChunkResponseMessage :=
  { transferableFile := f.transferableFile, metadataJson := f.metadataJson,
    attempt := attempt, isDone := isDone, error := handleError error }

/-- The event handleUploadFile posts from its catch block: attempt 0, not
done, the caught value flattened. -/
def uploadCatchEvent (f : FileMsg) (caught : ErrVal) : UploadChunkResponseMessage :=
  uploadProgressEvent f 0 false caught

/-- The event handleDownloadFile posts from its catch block: zero chunk
bytes and the caught value flattened. -/
def downloadCatchEvent (f : FileMsg) (caught : ErrVal) : DownloadProgressResponseMessage :=
  { transferableFile := f.transferableFile, chunkBytes := 0,
    error := handleError caught }

/-! ## Predicates and spec-side definitions used by the claims -/

/-- The fingerprint transform exactly as the spec words it: take the
exported public modulus bytes, drop the first byte, hex-encode the
remaining bytes, compute SHA-256 over the bytes of that hex string, and
return the hex digest. -/
def fingerprintSpecTransform (modulus : List Nat) : String :=
  bytesToHex (sha256 (strToRawBytes (bytesToHex (modulus.drop 1))))

/-- The KeyPair invariant of the data model: the raw key is present
whenever the public key string is present, and the private input is
present only when the pair can sign and decrypt. -/
def keyPairWF (kp : KeyPair) : Bool :=
  (!kp.publicKey.isSome || kp.key.isSome) &&
  (!kp.input.isSome ||
    (match kp.key with
     | some k => k.isPrivate
     | none => false))

/-- Consistency of the raw key handle: its attached input is present only
on a private-capable key.  Every raw key the manager builds satisfies
this. -/
def rawConsistent (kp : KeyPair) : Bool :=
  match kp.key with
  | some k => !k.input.isSome || k.isPrivate
  | none => true

/-- The full invariant of manager-produced KeyPair values. -/
def keyPairStrongWF (kp : KeyPair) : Bool :=
  keyPairWF kp && rawConsistent kp

end Hoodik

namespace Hoodik

/-! ## Claims -/

/-- C1: for every KeyPair raw key, getFingerprintFromRaw computes exactly
the spec transform: export the public modulus as a byte sequence, drop
its first byte, hex-encode the remaining bytes, compute SHA-256 over the
bytes of that hex string, and return the hex digest. -/
theorem c1_fingerprint_transform (key : Raw) :
    getFingerprintFromRaw key = fingerprintSpecTransform key.n := by
  simp [getFingerprintFromRaw, fingerprintSpecTransform, List.map_id',
        List.drop_one]

/-- C2: for every valid underlying pair, the fingerprint of the public-key
blob and the fingerprint of the private-key blob agree, and both
succeed. -/
theorem c2_fingerprint_public_eq_private (n : List Nat) (d : Nat) :
    getFingerprint (Pem.publicPkcs1 n) = getFingerprint (Pem.privatePkcs1 n d) ∧
    ∃ fp, getFingerprint (Pem.publicPkcs1 n) = Except.ok fp := by
  exact ⟨rfl, _, rfl⟩

/-- C7: unwrapping a wrapped private key with the right passphrase
returns the plaintext, and unwrapping with a wrong passphrase fails with
a decryption error. -/
theorem c7_wrap_unwrap (p pass wrongPass : String) :
    decryptPrivateKey (protectPrivateKey p pass) pass = Except.ok p ∧
    (wrongPass ≠ pass →
      decryptPrivateKey (protectPrivateKey p pass) wrongPass =
        Except.error "DecryptionError") := by
  constructor
  · simp [decryptPrivateKey, protectPrivateKey, aesDecrypt, aesEncrypt]
  · intro hne
    simp [decryptPrivateKey, protectPrivateKey, aesDecrypt, aesEncrypt,
          Ne.symm hne]

/-- C7 witness: the round trip and the wrong-passphrase failure at
concrete strings. -/
theorem c7_wrap_unwrap_witness :
    decryptPrivateKey (protectPrivateKey "private pem" "pass") "pass" =
      Except.ok "private pem" ∧
    decryptPrivateKey (protectPrivateKey "private pem" "pass") "other" =
      Except.error "DecryptionError" :=
  ⟨(c7_wrap_unwrap "private pem" "pass" "other").1,
   (c7_wrap_unwrap "private pem" "pass" "other").2 (by decide)⟩

/-- C8: a cancel message appends the id to the cancellation list of its
direction and leaves the other list unchanged, and no message ever
removes an id: every handler extends both lists on the right. -/
theorem c8_cancel_registry :
    (∀ s id, (onmessage s (Msg.cancel Kind.upload id)).1.canceledUpload =
        s.canceledUpload ++ [id] ∧
      (onmessage s (Msg.cancel Kind.upload id)).1.canceledDownload =
        s.canceledDownload) ∧
    (∀ s id, (onmessage s (Msg.cancel Kind.download id)).1.canceledDownload =
        s.canceledDownload ++ [id] ∧
      (onmessage s (Msg.cancel Kind.download id)).1.canceledUpload =
        s.canceledUpload) ∧
    (∀ s m, ∃ t u, (onmessage s m).1.canceledUpload = s.canceledUpload ++ t ∧
      (onmessage s m).1.canceledDownload = s.canceledDownload ++ u) := by
  refine ⟨fun s id => ⟨rfl, rfl⟩, fun s id => ⟨rfl, rfl⟩, fun s m => ?_⟩
  cases m with
  | auth c => exact ⟨[], [], by simp [onmessage], by simp [onmessage]⟩
  | cancel kind id =>
      cases kind with
      | upload => exact ⟨[id], [], rfl, by simp [onmessage]⟩
      | download => exact ⟨[], [id], by simp [onmessage], rfl⟩
  | uploadFile f =>
      cases h : s.swApi with
      | none => exact ⟨[], [], by simp [onmessage, h], by simp [onmessage, h]⟩
      | some c => exact ⟨[], [], by simp [onmessage, h], by simp [onmessage, h]⟩
  | downloadFile f =>
      cases h : s.swApi with
      | none => exact ⟨[], [], by simp [onmessage, h], by simp [onmessage, h]⟩
      | some c => exact ⟨[], [], by simp [onmessage, h], by simp [onmessage, h]⟩

/-- Evaluation of getFingerprint on a public blob: the try branch wins. -/
theorem getFingerprint_public (n : List Nat) :
    getFingerprint (Pem.publicPkcs1 n) =
      Except.ok (getFingerprintFromRaw ⟨n, none, none⟩) := rfl

/-- Evaluation of getFingerprint on a private blob: the catch branch
derives and fingerprints the public key. -/
theorem getFingerprint_private (n : List Nat) (d : Nat) :
    getFingerprint (Pem.privatePkcs1 n d) =
      Except.ok (getFingerprintFromRaw ⟨n, none, none⟩) := rfl

/-- Evaluation of getFingerprint on a malformed blob: the private import
error of the catch branch propagates. -/
theorem getFingerprint_malformed (s : String) :
    getFingerprint (Pem.malformed s) =
      Except.error "KeyFormatError: importKey expected pkcs1 private pem" := rfl

/-- C3: getFingerprint tries public-key parsing first (a parseable public
key is fingerprinted as parsed), falls back to private-key parsing on
failure (the public key derived from the parsed private key is
fingerprinted), and fails exactly when neither parse succeeds. -/
theorem c3_fingerprint_fallback :
    (∀ input k, importPublicPem input = Except.ok k →
        getFingerprint input = Except.ok (getFingerprintFromRaw k)) ∧
    (∀ input e k, importPublicPem input = Except.error e →
        importPrivatePem input = Except.ok k →
        getFingerprint input =
          Except.ok (getFingerprintFromRaw ⟨k.n, none, none⟩)) ∧
    (∀ input, (∃ e, getFingerprint input = Except.error e) ↔
        ((∃ e, importPublicPem input = Except.error e) ∧
         (∃ e, importPrivatePem input = Except.error e))) := by
  refine ⟨?_, ?_, ?_⟩
  · intro input k h
    cases input with
    | privatePkcs1 n d => simp [importPublicPem] at h
    | publicPkcs1 n =>
        simp only [importPublicPem, Except.ok.injEq] at h
        subst h
        rfl
    | malformed s => simp [importPublicPem] at h
  · intro input e k he hk
    cases input with
    | privatePkcs1 n d =>
        simp only [importPrivatePem, Except.ok.injEq] at hk
        subst hk
        rfl
    | publicPkcs1 n => simp [importPublicPem] at he
    | malformed s => simp [importPrivatePem] at hk
  · intro input
    cases input with
    | privatePkcs1 n d =>
        simp [getFingerprint_private, importPublicPem, importPrivatePem]
    | publicPkcs1 n =>
        simp [getFingerprint_public, importPublicPem, importPrivatePem]
    | malformed s =>
        simp [getFingerprint_malformed, importPublicPem, importPrivatePem]

/-- C3 witness: the three branches at concrete blobs: a public blob is
fingerprinted directly, a private blob through the derived public key,
and a malformed blob fails both parses and errors. -/
theorem c3_fingerprint_fallback_witness :
    getFingerprint (Pem.publicPkcs1 [0, 2]) =
      Except.ok (getFingerprintFromRaw ⟨[0, 2], none, none⟩) ∧
    getFingerprint (Pem.privatePkcs1 [0, 2] 1) =
      Except.ok (getFingerprintFromRaw ⟨[0, 2], none, none⟩) ∧
    (∃ e, getFingerprint (Pem.malformed "junk") = Except.error e) :=
  ⟨c3_fingerprint_fallback.1 (Pem.publicPkcs1 [0, 2]) ⟨[0, 2], none, none⟩ rfl,
   c3_fingerprint_fallback.2.1 (Pem.privatePkcs1 [0, 2] 1)
     "KeyFormatError: expected pkcs1 public pem" ⟨[0, 2], some 1, none⟩ rfl rfl,
   (c3_fingerprint_fallback.2.2 (Pem.malformed "junk")).mpr
     ⟨⟨_, rfl⟩, ⟨_, rfl⟩⟩⟩

/-- C4: every KeyPair the manager operations produce satisfies the data
model invariant: the raw key is present whenever the public key is, and
the private input is present only on a sign-and-decrypt capable pair;
keypairFromRaw preserves the invariant of manager-produced values. -/
theorem c4_keypair_invariant :
    (∀ input, (inputToKeyPair input).toOption.all keyPairStrongWF = true) ∧
    (∀ pk, (publicToKeyPair pk).toOption.all keyPairStrongWF = true) ∧
    (∀ fresh, (generateKeyPair fresh).toOption.all keyPairStrongWF = true) ∧
    (∀ internal, keyPairStrongWF internal = true →
        (keypairFromRaw internal).toOption.all keyPairStrongWF = true) := by
  refine ⟨?_, ?_, ?_, ?_⟩
  · intro input
    cases input <;> rfl
  · intro pk
    cases pk <;> rfl
  · intro fresh
    rfl
  · intro internal h
    obtain ⟨inp, key, pk, fp⟩ := internal
    cases pk with
    | none =>
        cases key with
        | none => rfl
        | some k =>
            simp only [keyPairStrongWF, keyPairWF, rawConsistent,
              Bool.and_eq_true, Bool.or_eq_true] at h ⊢
            simp only [keypairFromRaw, bind, Except.bind, pure, Except.pure,
              Except.toOption, Option.all, keyPairStrongWF, keyPairWF,
              rawConsistent, Bool.and_eq_true, Bool.or_eq_true]
            refine ⟨⟨Or.inl rfl, ?_⟩, ?_⟩ <;>
              rcases h.2 with h2 | h2 <;> simp [h2]
    | some blob =>
        cases key with
        | none =>
            simp [keyPairStrongWF, keyPairWF, rawConsistent] at h
        | some k =>
            simp only [keyPairStrongWF, keyPairWF, rawConsistent,
              Bool.and_eq_true, Bool.or_eq_true] at h
            cases hgf : getFingerprint blob with
            | error e => simp [keypairFromRaw, hgf, Except.toOption, Option.all]
            | ok f =>
                simp only [keypairFromRaw, bind, Except.bind, pure, Except.pure,
                  Except.toOption, Option.all, keyPairStrongWF, keyPairWF,
                  rawConsistent, hgf, Bool.and_eq_true, Bool.or_eq_true]
                refine ⟨⟨Or.inr rfl, ?_⟩, ?_⟩ <;>
                  rcases h.2 with h2 | h2 <;> simp [h2]

/-- C4 witness: the invariant evaluated on concrete outputs of all four
operations. -/
theorem c4_keypair_invariant_witness :
    (inputToKeyPair (Pem.privatePkcs1 [0, 2] 1)).toOption.all keyPairStrongWF = true ∧
    (publicToKeyPair (Pem.publicPkcs1 [0, 2])).toOption.all keyPairStrongWF = true ∧
    (generateKeyPair ⟨[0, 2], some 1, none⟩).toOption.all keyPairStrongWF = true ∧
    keyPairStrongWF
      { input := none, key := some ⟨[0, 2], some 5, none⟩,
        publicKey := some (Pem.publicPkcs1 [0, 2]), fingerprint := none } = true ∧
    (keypairFromRaw
      { input := none, key := some ⟨[0, 2], some 5, none⟩,
        publicKey := some (Pem.publicPkcs1 [0, 2]), fingerprint := none
      }).toOption.all keyPairStrongWF = true :=
  ⟨c4_keypair_invariant.1 (Pem.privatePkcs1 [0, 2] 1),
   c4_keypair_invariant.2.1 (Pem.publicPkcs1 [0, 2]),
   c4_keypair_invariant.2.2.1 ⟨[0, 2], some 1, none⟩,
   by decide,
   c4_keypair_invariant.2.2.2 _ (by decide)⟩

/-- C5: verify returns a boolean for every parseable public key, errors
exactly when the public key does not parse, and answers false both for a
tampered message and for a non-matching public key. -/
theorem c5_verify_total :
    (∀ signature message pk k, importPublicPem pk = Except.ok k →
        verify signature message pk =
          Except.ok (rawVerify k message signature)) ∧
    (∀ signature message pk, (∃ e, verify signature message pk = Except.error e) ↔
        (∃ e, importPublicPem pk = Except.error e)) ∧
    (∀ kp k message message2 sigv, kp.key = some k →
        sign kp message = Except.ok sigv → message2 ≠ message →
        verify sigv message2 (exportPublicPem k) = Except.ok false) ∧
    (∀ kp k message sigv k2, kp.key = some k →
        sign kp message = Except.ok sigv → k2.n ≠ k.n →
        verify sigv message (exportPublicPem k2) = Except.ok false) := by
  refine ⟨?_, ?_, ?_, ?_⟩
  · intro signature message pk k h
    cases pk with
    | publicPkcs1 n =>
        simp only [importPublicPem, Except.ok.injEq] at h
        subst h
        rfl
    | privatePkcs1 n d => simp [importPublicPem] at h
    | malformed s => simp [importPublicPem] at h
  · intro signature message pk
    cases pk with
    | publicPkcs1 n =>
        simp [verify, publicToKeyPair, importPublicPem, bind, Except.bind,
          pure, Except.pure]
    | privatePkcs1 n d =>
        simp [verify, publicToKeyPair, importPublicPem, bind, Except.bind,
          pure, Except.pure]
    | malformed s =>
        simp [verify, publicToKeyPair, importPublicPem, bind, Except.bind,
          pure, Except.pure]
  · intro kp k message message2 sigv hk hsig hne
    simp only [sign, hk] at hsig
    by_cases hp : k.isPrivate = true
    · simp only [hp, if_true, Except.ok.injEq] at hsig
      subst hsig
      simp [verify, publicToKeyPair, importPublicPem, exportPublicPem,
        bind, Except.bind, pure, Except.pure, rawVerify, Ne.symm hne]
    · simp [hp] at hsig
  · intro kp k message sigv k2 hk hsig hn
    simp only [sign, hk] at hsig
    by_cases hp : k.isPrivate = true
    · simp only [hp, if_true, Except.ok.injEq] at hsig
      subst hsig
      simp [verify, publicToKeyPair, importPublicPem, exportPublicPem,
        bind, Except.bind, pure, Except.pure, rawVerify, Ne.symm hn]
    · simp [hp] at hsig

/-- C5 witness: at a concrete keypair, verification of a signature is a
boolean, a malformed key is the only error, and both the tampered-message
and wrong-key checks answer false. -/
theorem c5_verify_total_witness :
    verify (SigVal.signed [0, 2] "m") "m" (Pem.publicPkcs1 [0, 2]) =
      Except.ok (rawVerify ⟨[0, 2], none, none⟩ "m" (SigVal.signed [0, 2] "m")) ∧
    ((∃ e, verify (SigVal.junk "sig") "m" (Pem.malformed "bad") = Except.error e) ↔
      (∃ e, importPublicPem (Pem.malformed "bad") = Except.error e)) ∧
    verify (SigVal.signed [0, 2] "m") "tampered"
      (exportPublicPem ⟨[0, 2], some 1, none⟩) = Except.ok false ∧
    verify (SigVal.signed [0, 2] "m") "m"
      (exportPublicPem ⟨[0, 9], none, none⟩) = Except.ok false :=
  ⟨c5_verify_total.1 (SigVal.signed [0, 2] "m") "m" (Pem.publicPkcs1 [0, 2])
      ⟨[0, 2], none, none⟩ rfl,
   c5_verify_total.2.1 (SigVal.junk "sig") "m" (Pem.malformed "bad"),
   c5_verify_total.2.2.1
      { input := none, key := some ⟨[0, 2], some 1, none⟩,
        publicKey := none, fingerprint := none }
      ⟨[0, 2], some 1, none⟩ "m" "tampered" (SigVal.signed [0, 2] "m")
      rfl rfl (by decide),
   c5_verify_total.2.2.2
      { input := none, key := some ⟨[0, 2], some 1, none⟩,
        publicKey := none, fingerprint := none }
      ⟨[0, 2], some 1, none⟩ "m" (SigVal.signed [0, 2] "m")
      ⟨[0, 9], none, none⟩ rfl rfl (by decide)⟩

/-- C6: for a private-capable keypair and a message within the pkcs1
payload limit of the key, encrypting with the exported public key and
decrypting with the keypair returns the message. -/
theorem c6_encrypt_decrypt_roundtrip (kp : KeyPair) (k : Raw) (m : String)
    (hk : kp.key = some k) (hp : k.isPrivate = true)
    (hlen : m.utf8ByteSize ≤ maxMessageSize k) :
    ∃ c, encryptMessage m (exportPublicPem k) = Except.ok c ∧
         decryptMessage kp c = Except.ok m := by
  refine ⟨CipherVal.enc k.n m, ?_, ?_⟩
  · simp only [encryptMessage, publicToKeyPair, importPublicPem,
      exportPublicPem, bind, Except.bind, pure, Except.pure, Raw.isPublic,
      Bool.not_true, Bool.false_eq_true, if_false, gt_iff_lt, Nat.not_lt]
    simp [Nat.not_lt.mpr hlen, maxMessageSize]
    exact hlen
  · simp [decryptMessage, hk, hp]

/-- C6 witness: the round trip at a concrete 13-byte modulus and a
one-byte message, which meets the payload limit exactly. -/
theorem c6_encrypt_decrypt_roundtrip_witness :
    ∃ c, encryptMessage "a"
        (exportPublicPem ⟨[0, 9, 9, 9, 9, 9, 9, 9, 9, 9, 9, 9, 9], some 3, none⟩) =
        Except.ok c ∧
      decryptMessage
        { input := none,
          key := some ⟨[0, 9, 9, 9, 9, 9, 9, 9, 9, 9, 9, 9, 9], some 3, none⟩,
          publicKey := some (Pem.publicPkcs1 [0, 9, 9, 9, 9, 9, 9, 9, 9, 9, 9, 9, 9]),
          fingerprint := none } c = Except.ok "a" :=
  c6_encrypt_decrypt_roundtrip
    { input := none,
      key := some ⟨[0, 9, 9, 9, 9, 9, 9, 9, 9, 9, 9, 9, 9], some 3, none⟩,
      publicKey := some (Pem.publicPkcs1 [0, 9, 9, 9, 9, 9, 9, 9, 9, 9, 9, 9, 9]),
      fingerprint := none }
    ⟨[0, 9, 9, 9, 9, 9, 9, 9, 9, 9, 9, 9, 9], some 3, none⟩ "a"
    rfl rfl (by decide)

/-- C9: the worker dispatches a pipeline only when the SWApi credentials
are installed: any step that emits a dispatch ends with credentials
installed, a transfer message arriving without credentials suspends into
the pending list and dispatches nothing, and a suspended transfer is
dispatched when the auth message is processed. -/
theorem c9_auth_before_dispatch :
    (∀ s m d, d ∈ (onmessage s m).2 → (onmessage s m).1.swApi.isSome = true) ∧
    (∀ s f, s.swApi = none →
        onmessage s (Msg.uploadFile f) =
          ({ s with pendingUpload := s.pendingUpload ++ [f] }, []) ∧
        onmessage s (Msg.downloadFile f) =
          ({ s with pendingDownload := s.pendingDownload ++ [f] }, [])) ∧
    (∀ s c f, f ∈ s.pendingUpload →
        Dispatch.dispatchUpload c f ∈ (onmessage s (Msg.auth c)).2) ∧
    (∀ s c f, f ∈ s.pendingDownload →
        Dispatch.dispatchDownload c f ∈ (onmessage s (Msg.auth c)).2) := by
  refine ⟨?_, ?_, ?_, ?_⟩
  · intro s m d hd
    cases m with
    | auth c => simp [onmessage]
    | cancel kind id => cases kind <;> simp [onmessage] at hd
    | uploadFile f =>
        cases h : s.swApi with
        | none => simp [onmessage, h] at hd
        | some c => simp [onmessage, h]
    | downloadFile f =>
        cases h : s.swApi with
        | none => simp [onmessage, h] at hd
        | some c => simp [onmessage, h]
  · intro s f h
    exact ⟨by simp [onmessage, h], by simp [onmessage, h]⟩
  · intro s c f h
    simp [onmessage, h]
  · intro s c f h
    simp [onmessage, h]

/-- C9 witness: with no credentials installed, an upload-file message
suspends and dispatches nothing; processing auth afterwards dispatches
the suspended transfer. -/
theorem c9_auth_before_dispatch_witness :
    onmessage initialWorkerState (Msg.uploadFile ⟨7, "meta"⟩) =
      ({ initialWorkerState with pendingUpload := [⟨7, "meta"⟩] }, []) ∧
    Dispatch.dispatchUpload 42 ⟨7, "meta"⟩ ∈
      (onmessage { initialWorkerState with pendingUpload := [⟨7, "meta"⟩] }
        (Msg.auth 42)).2 :=
  ⟨by
    have h := (c9_auth_before_dispatch.2.1 initialWorkerState ⟨7, "meta"⟩ rfl).1
    simpa [initialWorkerState] using h,
   c9_auth_before_dispatch.2.2.1
     { initialWorkerState with pendingUpload := [⟨7, "meta"⟩] } 42 ⟨7, "meta"⟩
     (by decide)⟩

/-- C10 counterexample: a failure is caught at the upload boundary (the
thrown value is truthy, so the catch path reports a real failure), yet
the posted terminal event carries no error at all, because handleError
flattens neither plain objects nor falsy values. -/
theorem c10_error_counterexample :
    (ErrVal.otherObj "plain ErrorResponse object").truthy = true ∧
    (uploadCatchEvent ⟨7, "meta"⟩
      (ErrVal.otherObj "plain ErrorResponse object")).error = none ∧
    (downloadCatchEvent ⟨7, "meta"⟩
      (ErrVal.otherObj "plain ErrorResponse object")).error = none := by
  decide

/-- C10 amended: the error field of every terminal failure event is the
handleError flattening of the caught value; when the caught value is a
non-empty string or a native Error instance the flattening is structured
data, a context string plus optional stack, and never a native throwable;
for any other caught value, a falsy value or a non-Error object, the
error field is absent even though a failure occurred. -/
theorem c10_error_flattening :
    (∀ f caught, (uploadCatchEvent f caught).error = handleError caught) ∧
    (∀ f caught, (downloadCatchEvent f caught).error = handleError caught) ∧
    (∀ caught w, handleError caught = some w →
        (∃ s, caught = ErrVal.str s ∧ s ≠ "" ∧ w = ⟨s, none⟩) ∨
        (∃ msg stack v dsc, caught = ErrVal.errObj msg stack v dsc ∧
            w = ⟨jsOr v (jsOr dsc msg), stack⟩)) ∧
    (∀ caught, handleError caught = none ↔
        (caught.truthy = false ∨ ∃ tag, caught = ErrVal.otherObj tag)) := by
  refine ⟨fun f caught => rfl, fun f caught => rfl, ?_, ?_⟩
  · intro caught w h
    cases caught with
    | noErr => simp [handleError] at h
    | str s =>
        by_cases hs : s = ""
        · simp [handleError, hs] at h
        · simp only [handleError, hs, if_false, Option.some.injEq] at h
          exact Or.inl ⟨s, rfl, hs, h.symm⟩
    | errObj msg stack v dsc =>
        simp only [handleError, Option.some.injEq] at h
        exact Or.inr ⟨msg, stack, v, dsc, rfl, h.symm⟩
    | otherObj tag => simp [handleError] at h
  · intro caught
    cases caught with
    | noErr => simp [handleError, ErrVal.truthy]
    | str s =>
        by_cases hs : s = "" <;> simp [handleError, ErrVal.truthy, hs]
    | errObj msg stack v dsc => simp [handleError, ErrVal.truthy]
    | otherObj tag => simp [handleError, ErrVal.truthy]

/-- C10 amended witness: the flattening evaluated through the upload
boundary at a concrete string failure and a concrete Error failure. -/
theorem c10_error_flattening_witness :
    (uploadCatchEvent ⟨7, "meta"⟩ (ErrVal.str "boom")).error =
      handleError (ErrVal.str "boom") ∧
    (downloadCatchEvent ⟨7, "meta"⟩
        (ErrVal.errObj "msg" (some "stack") none none)).error =
      handleError (ErrVal.errObj "msg" (some "stack") none none) ∧
    ((∃ s, ErrVal.str "boom" = ErrVal.str s ∧ s ≠ "" ∧
        (⟨"boom", none⟩ : WorkerError) = ⟨s, none⟩) ∨
     (∃ msg stack v dsc, ErrVal.str "boom" = ErrVal.errObj msg stack v dsc ∧
        (⟨"boom", none⟩ : WorkerError) = ⟨jsOr v (jsOr dsc msg), stack⟩)) :=
  ⟨c10_error_flattening.1 ⟨7, "meta"⟩ (ErrVal.str "boom"),
   c10_error_flattening.2.1 ⟨7, "meta"⟩
     (ErrVal.errObj "msg" (some "stack") none none),
   c10_error_flattening.2.2.1 (ErrVal.str "boom") ⟨"boom", none⟩ (by decide)⟩

end Hoodik
